import Mathlib

/-
Verification of the agent execution runtime of the env-dev-ai-agent
repository against its natural-language specification.

The development shallowly embeds the TypeScript sources:

  * src/core/tool-registry.ts      (ToolRegistry.executeTool and friends)
  * src/core/agent.ts              (Agent.execute / executeTools / spawnSubagent)
  * src/core/claude-agent.ts       (ClaudeAgent.execute / executeTools / spawnSubagent)
  * src/llm/claude-provider.ts     (ClaudeProvider.parseClaudeResponse)
  * src/memory/memory-manager.ts   (modelled from the spec; the file itself is
                                    absent from the source snapshot)

JavaScript runtime values that can appear in tool parameters, tool results,
working memory and parsed LLM replies are modelled by the JSON universe
`Value`.  Asynchronous calls that can reject (the reasoning request, a tool
body) are modelled as `Except String` outcomes supplied at the call boundary;
a caught JS exception is identified with its `.message` string.
-/

/-- JSON-style universe for dynamically typed JavaScript values
(tool parameters, tool result payloads, parsed LLM replies, memory values).
Numbers are modelled as integers; no claim under verification involves
fractional arithmetic. -/
inductive Value where
  | null : Value
  | bool (b : Bool) : Value
  | num (n : Int) : Value
  | str (s : String) : Value
  | arr (items : List Value) : Value
  | obj (fields : List (String × Value)) : Value

/-- JavaScript truthiness for `Value`: null, false, 0 and the empty string
are falsy; every array and object (even empty) is truthy. -/
def truthy : Value → Bool
  | .null => false
  | .bool b => b
  | .num n => !(n == 0)
  | .str s => !(s == "")
  | .arr _ => true
  | .obj _ => true

/-- Property access `v[k]` on a JavaScript value: a missing key or a
non-object receiver yields `undefined`, modelled as `none`. -/
def getField (v : Value) (k : String) : Option Value :=
  match v with
  | .obj fields => fields.lookup k
  | _ => none

/-- The JavaScript `a || b` idiom on an optionally-present value:
the value itself when present and truthy, otherwise the default. -/
def jsOr (v : Option Value) (d : Value) : Value :=
  match v with
  | some x => if truthy x then x else d
  | none => d

/-- The JavaScript `a || b` idiom on an optional numeric configuration field
(`config.maxSubagents || 5`): `0` is falsy, so it also selects the default. -/
def jsOrNat (v : Option Nat) (d : Nat) : Nat :=
  match v with
  | some n => if n == 0 then d else n
  | none => d

/-- Escape a character for inclusion in a JSON string literal
(quote and backslash only; the strings under verification contain no
control characters). -/
def escapeChar (c : Char) : String :=
  if c == '"' then "\\\"" else if c == '\\' then "\\\\" else String.singleton c

/-- Escape a string for inclusion in a JSON string literal. -/
def escapeString (s : String) : String :=
  String.join (s.data.map escapeChar)

mutual

/-- Canonical JSON rendering of a `Value`.  This models
`JSON.stringify(result, null, 2)` from the sources up to insignificant
whitespace: the pretty-printing argument `2` only inserts line breaks and
indentation, which no claim under verification observes. -/
def renderValue : Value → String
  | .null => "null"
  | .bool true => "true"
  | .bool false => "false"
  | .num n => toString n
  | .str s => "\"" ++ escapeString s ++ "\""
  | .arr items => "[" ++ renderItems items ++ "]"
  | .obj fields => "\x7b" ++ renderFields fields ++ "\x7d"

/-- Render the elements of a JSON array, comma separated. -/
def renderItems : List Value → String
  | [] => ""
  | [v] => renderValue v
  | v :: rest => renderValue v ++ "," ++ renderItems rest

/-- Render the fields of a JSON object, comma separated. -/
def renderFields : List (String × Value) → String
  | [] => ""
  | [(k, v)] => "\"" ++ escapeString k ++ "\":" ++ renderValue v
  | (k, v) :: rest =>
      "\"" ++ escapeString k ++ "\":" ++ renderValue v ++ "," ++ renderFields rest

end

/-- ToolResult from src/types/agent.types.ts: the always-well-formed outcome
of a tool invocation (`success`, optional `data`, optional `error`,
optional `metadata`). -/
structure ToolResult where
  success : Bool
  data : Option Value
  error : Option String
  metadata : Option Value

/-- ToolParameter from src/types/agent.types.ts.  The optional Zod schema is
modelled by its observable behaviour: `schema.parse(v)` either succeeds or
throws an error whose message is reported. -/
structure ToolParameter where
  name : String
  type : String
  description : String
  required : Bool
  schema : Option (Value → Except String Unit)

/-- Tool from src/types/agent.types.ts.  `execute` may reject; the rejection
carries the thrown error's message. -/
structure Tool where
  name : String
  description : String
  parameters : List ToolParameter
  execute : List (String × Value) → Except String ToolResult

/-- ToolRegistry.getTool: `this.tools.get(name)`, with the registry's
name-keyed map modelled as a list searched by tool name (registration
enforces unique names). -/
def ToolRegistry.getTool (tools : List Tool) (name : String) : Option Tool :=
  tools.find? (fun t => t.name == name)

/-- The missing-required-parameter computation inside
ToolRegistry.executeTool:
`tool.parameters.filter(p => p.required && !(p.name in parameters)).map(p => p.name)`. -/
def missingRequired (ps : List ToolParameter) (parameters : List (String × Value)) : List String :=
  (ps.filter (fun p => p.required && (parameters.lookup p.name).isNone)).map (fun p => p.name)

/-- The Zod validation loop inside ToolRegistry.executeTool: scan the
declared parameters in order; for each one that has a schema and is present
in the supplied record, run `schema.parse`; report the first failure as
(parameter name, thrown message). -/
def firstInvalid : List ToolParameter → List (String × Value) → Option (String × String)
  | [], _ => none
  | p :: rest, parameters =>
      match p.schema, parameters.lookup p.name with
      | some sch, some v =>
          match sch v with
          | .error e => some (p.name, e)
          | .ok _ => firstInvalid rest parameters
      | _, _ => firstInvalid rest parameters

/-- ToolRegistry.executeTool from src/core/tool-registry.ts: look the tool
up, check required parameters, run the Zod validators, then run the tool
body inside a try/catch.  Every branch returns a plain `ToolResult`; the
function is total, which is the embedding of "invoke never raises". -/
def ToolRegistry.executeTool (tools : List Tool) (toolName : String)
    (parameters : List (String × Value)) : ToolResult :=
  match ToolRegistry.getTool tools toolName with
  | none =>
      { success := false, data := none,
        error := some ("Tool \"" ++ toolName ++ "\" not found"), metadata := none }
  | some tool =>
      let missingParams := missingRequired tool.parameters parameters
      if missingParams.length > 0 then
        { success := false, data := none,
          error := some ("Missing required parameters: " ++ String.intercalate ", " missingParams),
          metadata := none }
      else
        match firstInvalid tool.parameters parameters with
        | some (pname, emsg) =>
            { success := false, data := none,
              error := some ("Invalid parameter \"" ++ pname ++ "\": " ++ emsg),
              metadata := none }
        | none =>
            match tool.execute parameters with
            | .ok result => result
            | .error e =>
                { success := false, data := none,
                  error := some (if e == "" then "Unknown error occurred" else e),
                  metadata := none }

/-- MessageRole from src/types/agent.types.ts. -/
inductive MessageRole where
  | system : MessageRole
  | user : MessageRole
  | assistant : MessageRole
  | tool : MessageRole

/-- Message from src/types/agent.types.ts.  `content` is string-typed in
TypeScript but can carry any runtime value reaching it from an unvalidated
LLM reply, so it is modelled as a `Value`; the timestamp (`new Date()`) is
modelled as a number drawn from an ambient clock parameter.  The optional
metadata record is an open field map. -/
structure Message where
  role : MessageRole
  content : Value
  metadata : Option (List (String × Value))
  timestamp : Nat

/-- ToolCall from src/types/agent.types.ts. -/
structure ToolCall where
  toolName : String
  parameters : List (String × Value)
  reasoning : Option String

/-- The metadata record attached to a parsed Claude reply by
ClaudeProvider.parseClaudeResponse: the decoded `reasoning` field (if any)
and the raw reply text. -/
structure ResponseMetadata where
  reasoning : Option Value
  rawResponse : Option String

/-- AgentResponse from src/types/agent.types.ts.  `toolCalls` and `metadata`
are optional properties; `message` and `nextAction` are string-typed in
TypeScript but the parser can propagate arbitrary decoded values into them,
so they are modelled as `Value`. -/
structure AgentResponse where
  message : Value
  toolCalls : Option (List ToolCall)
  nextAction : Value
  metadata : Option ResponseMetadata

/-- The regex probe `responseText.match(/\x7b[\s\S]*\x7d/)` in
ClaudeProvider.parseClaudeResponse: the leftmost match starts at the first
opening brace and, the star being greedy, ends at the last closing brace of
the whole text; there is a match exactly when some closing brace follows
the first opening brace. -/
def extractJsonCandidate (s : String) : Option String :=
  let cs := s.data
  match cs.findIdx? (fun c => c == '{'), cs.reverse.findIdx? (fun c => c == '}') with
  | some i, some jr =>
      let j := cs.length - 1 - jr
      if i < j then some (String.mk ((cs.drop i).take (j + 1 - i))) else none
  | _, _ => none

/-- Read one element of the decoded `toolCalls` array into the declared
`ToolCall` shape.  TypeScript performs no runtime validation here (the raw
decoded array is assigned to the `ToolCall[]`-typed field); the embedding
reads the three declared properties, with the type's defaults for absent or
ill-typed ones. -/
def decodeToolCall (v : Value) : ToolCall :=
  { toolName := match getField v "toolName" with | some (.str s) => s | _ => ""
    parameters := match getField v "parameters" with | some (.obj fields) => fields | _ => []
    reasoning := match getField v "reasoning" with | some (.str s) => some s | _ => none }

/-- The coercion `Array.isArray(parsed.toolCalls) ? parsed.toolCalls : []`:
a decoded array is kept element-wise, anything else (including an absent
field) becomes the empty array. -/
def coerceToolCalls (v : Option Value) : List ToolCall :=
  match v with
  | some (.arr items) => items.map decodeToolCall
  | _ => []

/-- ClaudeProvider.parseClaudeResponse from src/llm/claude-provider.ts.
`jsonParse` is the external `JSON.parse` primitive, supplied as an oracle:
`none` models a parse exception (caught by the surrounding try/catch).
When no brace-delimited candidate exists or parsing throws, the reply
degrades to a plain response carrying the raw text; on success the decoded
fields are coerced as in the source. -/
def parseClaudeResponse (jsonParse : String → Option Value) (responseText : String) :
    AgentResponse :=
  match extractJsonCandidate responseText with
  | none =>
      { message := .str responseText, toolCalls := none,
        nextAction := .str "complete", metadata := none }
  | some jsonStr =>
      match jsonParse jsonStr with
      | none =>
          { message := .str responseText, toolCalls := none,
            nextAction := .str "complete", metadata := none }
      | some parsed =>
          { message := jsOr (getField parsed "message") (.str responseText)
            toolCalls := some (coerceToolCalls (getField parsed "toolCalls"))
            nextAction := jsOr (getField parsed "nextAction") (.str "complete")
            metadata := some { reasoning := getField parsed "reasoning",
                               rawResponse := some responseText } }

/-- The nextAction values named by the output contract
(`'continue' | 'await_input' | 'spawn_subagent' | 'complete'`). -/
def knownNextActionStrings : List String :=
  ["continue", "await_input", "spawn_subagent", "complete"]

/-- AgentStatus from src/types/agent.types.ts. -/
inductive AgentStatus where
  | idle : AgentStatus
  | thinking : AgentStatus
  | executingTool : AgentStatus
  | waitingForInput : AgentStatus
  | completed : AgentStatus
  | error : AgentStatus

/-- AgentConfig from src/types/agent.types.ts (the fields the runtime
reads; the memory options only gate persistence calls outside the claims). -/
structure AgentConfig where
  name : String
  description : String
  systemPrompt : String
  tools : List String
  mode : Option String
  canSpawnSubagents : Option Bool
  maxIterations : Option Nat
  maxSubagents : Option Nat

/-- AgentContext from src/types/agent.types.ts. -/
structure AgentContext where
  messages : List Message
  environment : List (String × Value)
  availableTools : List String
  workingMemory : List (String × Value)
  sessionId : String
  parentAgentId : Option String

/-- AgentState from src/types/agent.types.ts.  The subagent map stores each
spawned child's terminal state snapshot keyed by its id; since no code path
under verification ever reads a stored snapshot back (the map is only
size-checked and inserted into), the snapshot payloads are elided and the
map is carried as the list of child ids in insertion order. -/
structure AgentState where
  id : String
  config : AgentConfig
  status : AgentStatus
  currentTask : Option String
  subagents : List String
  iterations : Nat
  startTime : Nat
  endTime : Option Nat
  context : AgentContext

/-- The state held by one MemoryManager instance: the working key/value
store and the ordered conversation log.  The class body lives in
src/memory/memory-manager.ts, which is absent from the source snapshot;
the spec describes it as a key-to-value mapping with last-write-wins
updates plus an append-only message list.  The map is modelled as an
association list whose most recent write for a key shadows earlier ones. -/
structure MemoryState where
  workingMemory : List (String × Value)
  conversationHistory : List Message

/-- One Agent (or ClaudeAgent) instance: its mutable state plus its owned
MemoryManager. -/
structure AgentData where
  state : AgentState
  memory : MemoryState

/-- Modelled from the spec: MemoryManager.set of src/memory/memory-manager.ts
(absent from the source snapshot) — working memory write, last write wins. -/
def MemoryManager.set (mem : MemoryState) (key : String) (value : Value) : MemoryState :=
  { mem with workingMemory := (key, value) :: mem.workingMemory }

/-- Modelled from the spec: MemoryManager.addMessage of
src/memory/memory-manager.ts (absent from the source snapshot) — appends to
the conversation log (the callers under verification always supply a
timestamp). -/
def MemoryManager.addMessage (mem : MemoryState) (msg : Message) : MemoryState :=
  { mem with conversationHistory := mem.conversationHistory ++ [msg] }

/-- The JSON image of a ToolResult, as the tool message body
`JSON.stringify(result, null, 2)` serializes it: `undefined` optional
fields are omitted. -/
def toolResultJson (r : ToolResult) : Value :=
  .obj ([("success", .bool r.success)]
    ++ (match r.data with | some v => [("data", v)] | none => [])
    ++ (match r.error with | some e => [("error", .str e)] | none => [])
    ++ (match r.metadata with | some m => [("metadata", m)] | none => []))

/-- The Tool Message Agent.executeTools appends for one call: serialized
result as content, tool name and parameters as metadata. -/
def Agent.toolMessage (call : ToolCall) (result : ToolResult) (now : Nat) : Message :=
  { role := .tool
    content := .str (renderValue (toolResultJson result))
    metadata := some [("toolName", .str call.toolName), ("parameters", .obj call.parameters)]
    timestamp := now }

/-- The Tool Message ClaudeAgent.executeTools appends for one call: like the
Agent one, with the call's reasoning recorded in the metadata as well. -/
def ClaudeAgent.toolMessage (call : ToolCall) (result : ToolResult) (now : Nat) : Message :=
  { role := .tool
    content := .str (renderValue (toolResultJson result))
    metadata := some ([("toolName", .str call.toolName), ("parameters", .obj call.parameters)]
      ++ (match call.reasoning with | some r => [("reasoning", .str r)] | none => []))
    timestamp := now }

/-- One iteration of the executeTools loop shared by Agent and ClaudeAgent:
invoke the registry, store the result in working memory under
`tool_result_` + tool name, and append the given Tool Message to both the
MemoryManager log and the context message list. -/
def applyToolCall (reg : List Tool) (toolMsg : ToolCall → ToolResult → Nat → Message)
    (now : Nat) (a : AgentData) (call : ToolCall) : AgentData :=
  let result := ToolRegistry.executeTool reg call.toolName call.parameters
  let msg := toolMsg call result now
  { state := { a.state with
      context := { a.state.context with messages := a.state.context.messages ++ [msg] } }
    memory := MemoryManager.addMessage
      (MemoryManager.set a.memory ("tool_result_" ++ call.toolName) (toolResultJson result))
      msg }

/-- The `for (const call of toolCalls)` loop of executeTools, run
sequentially in declared order. -/
def runToolCalls (reg : List Tool) (toolMsg : ToolCall → ToolResult → Nat → Message)
    (now : Nat) : AgentData → List ToolCall → AgentData
  | a, [] => a
  | a, call :: rest => runToolCalls reg toolMsg now (applyToolCall reg toolMsg now a call) rest

/-- Agent.executeTools from src/core/agent.ts: transition to the
tool-executing status, then run every requested call in order. -/
def Agent.executeTools (reg : List Tool) (a : AgentData) (calls : List ToolCall)
    (now : Nat) : AgentData :=
  runToolCalls reg Agent.toolMessage now
    { a with state := { a.state with status := .executingTool } } calls

/-- ClaudeAgent.executeTools from src/core/claude-agent.ts: identical loop,
with the reasoning-carrying tool messages. -/
def ClaudeAgent.executeTools (reg : List Tool) (a : AgentData) (calls : List ToolCall)
    (now : Nat) : AgentData :=
  runToolCalls reg ClaudeAgent.toolMessage now
    { a with state := { a.state with status := .executingTool } } calls

/-- Agent.execute from src/core/agent.ts.  The body of `await this.think(...)`
is the try block's only fault source; its outcome (a normal response, or a
thrown error's message) is supplied at the call boundary as `thinkOutcome`,
so the theorem quantifies over every reasoning outcome.  All timestamps of
the turn are drawn from the ambient clock value `now`. -/
def Agent.execute (reg : List Tool) (a : AgentData) (userInput : String)
    (thinkOutcome : Except String AgentResponse) (now : Nat) : AgentData × AgentResponse :=
  let userMessage : Message :=
    { role := .user, content := .str userInput, metadata := none, timestamp := now }
  let a1 : AgentData :=
    { state := { a.state with
        context := { a.state.context with
          messages := a.state.context.messages ++ [userMessage] }
        status := .thinking
        currentTask := some userInput }
      memory := MemoryManager.addMessage a.memory userMessage }
  match thinkOutcome with
  | .error e =>
      ({ a1 with state := { a1.state with status := .error } },
       { message := .str ("Error: " ++ e), toolCalls := none,
         nextAction := .str "complete", metadata := none })
  | .ok response =>
      let calls := response.toolCalls.getD []
      let a2 := if calls.length > 0 then Agent.executeTools reg a1 calls now else a1
      ({ a2 with state := { a2.state with status := .completed, endTime := some now } },
       response)

/-- The JSON image of a ToolCall, for the assistant message metadata. -/
def toolCallJson (c : ToolCall) : Value :=
  .obj ([("toolName", .str c.toolName), ("parameters", .obj c.parameters)]
    ++ (match c.reasoning with | some r => [("reasoning", .str r)] | none => []))

/-- The metadata ClaudeAgent.execute attaches to the assistant message:
the reasoning recorded by the provider and the tool calls of the turn
(fields with `undefined` values are elided). -/
def assistantMeta (response : AgentResponse) : List (String × Value) :=
  (match response.metadata with
   | some m => (match m.reasoning with | some r => [("reasoning", r)] | none => [])
   | none => [])
  ++ (match response.toolCalls with
      | some cs => [("toolCalls", .arr (cs.map toolCallJson))]
      | none => [])

/-- ClaudeAgent.execute from src/core/claude-agent.ts.  Two external call
boundaries feed the try block: the main reasoning call (`thinkOutcome`) and
the post-tool summary call made by generateSummary (`summaryOutcome`, whose
failure silently falls back to the original response's message).  Note the
iteration counter increment, which the plain Agent variant lacks. -/
def ClaudeAgent.execute (reg : List Tool) (a : AgentData) (userInput : String)
    (thinkOutcome : Except String AgentResponse)
    (summaryOutcome : Except String AgentResponse) (now : Nat) : AgentData × AgentResponse :=
  let userMessage : Message :=
    { role := .user, content := .str userInput, metadata := none, timestamp := now }
  let a1 : AgentData :=
    { state := { a.state with
        context := { a.state.context with
          messages := a.state.context.messages ++ [userMessage] }
        status := .thinking
        currentTask := some userInput
        iterations := a.state.iterations + 1 }
      memory := MemoryManager.addMessage a.memory userMessage }
  match thinkOutcome with
  | .error e =>
      ({ a1 with state := { a1.state with status := .error } },
       { message := .str ("❌ Erreur: " ++ e), toolCalls := none,
         nextAction := .str "complete", metadata := none })
  | .ok response =>
      let calls := response.toolCalls.getD []
      let stage :=
        if calls.length > 0 then
          let a2 := ClaudeAgent.executeTools reg a1 calls now
          let summaryMessage :=
            match summaryOutcome with
            | .ok summaryResponse => summaryResponse.message
            | .error _ => response.message
          (a2, { response with message := summaryMessage })
        else (a1, response)
      let a2 := stage.1
      let response2 := stage.2
      let assistantMessage : Message :=
        { role := .assistant, content := response2.message,
          metadata := some (assistantMeta response), timestamp := now }
      let a3 : AgentData :=
        { state := { a2.state with
            context := { a2.state.context with
              messages := a2.state.context.messages ++ [assistantMessage] }
            status := .completed
            endTime := some now }
          memory := MemoryManager.addMessage a2.memory assistantMessage }
      (a3, response2)

/-- Agent.spawnSubagent from src/core/agent.ts.  The child's construction
and complete run are external to the guard logic under verification; the
fresh child id and the child's terminal response are supplied as
parameters.  The two `throw new Error(...)` statements surface as `.error`
values; on success the child's snapshot is recorded in the parent's
subagent map. -/
def Agent.spawnSubagent (a : AgentData) (childId : String) (childResult : AgentResponse) :
    Except String (AgentData × AgentResponse) :=
  if !(a.state.config.canSpawnSubagents == some true) then
    .error "This agent is not allowed to spawn subagents"
  else
    let maxSubagents := jsOrNat a.state.config.maxSubagents 5
    if a.state.subagents.length ≥ maxSubagents then
      .error ("Maximum number of subagents (" ++ toString maxSubagents ++ ") reached")
    else
      .ok ({ a with state := { a.state with subagents := a.state.subagents ++ [childId] } },
           childResult)

/-- ClaudeAgent.spawnSubagent from src/core/claude-agent.ts: the same guard
logic (the construction of the child and its Claude configuration are
external). -/
def ClaudeAgent.spawnSubagent (a : AgentData) (childId : String) (childResult : AgentResponse) :
    Except String (AgentData × AgentResponse) :=
  if !(a.state.config.canSpawnSubagents == some true) then
    .error "This agent is not allowed to spawn subagents"
  else
    let maxSubagents := jsOrNat a.state.config.maxSubagents 5
    if a.state.subagents.length ≥ maxSubagents then
      .error ("Maximum number of subagents (" ++ toString maxSubagents ++ ") reached")
    else
      .ok ({ a with state := { a.state with subagents := a.state.subagents ++ [childId] } },
           childResult)

/-- The on-disk snapshot written by MemoryManager.persist:
`\x7bworkingMemory, conversationHistory, timestamp\x7d`.  The file contents
are modelled at the JSON-value level; the `JSON.stringify`/`JSON.parse`
text layer is the external library's bijection on JSON values. -/
structure MemorySnapshot where
  workingMemory : List (String × Value)
  conversationHistory : List Message
  timestamp : String

/-- A file system restricted to snapshot files: path-keyed, latest write
first (an atomic whole-file rewrite shadows every earlier write). -/
def SnapshotFS := List (String × MemorySnapshot)

/-- Modelled from the spec: MemoryManager.persist of
src/memory/memory-manager.ts (absent from the source snapshot) — writes
`\x7bworkingMemory, conversationHistory, timestamp\x7d` to the configured
path as one atomic rewrite. -/
def MemoryManager.persist (mem : MemoryState) (path : String) (fs : SnapshotFS)
    (now : String) : SnapshotFS :=
  (path, { workingMemory := mem.workingMemory,
           conversationHistory := mem.conversationHistory,
           timestamp := now }) :: fs

/-- Modelled from the spec: MemoryManager.load of
src/memory/memory-manager.ts (absent from the source snapshot) — reads the
snapshot at the configured path and replaces the current state; a missing
file is not an error and yields the empty initial state. -/
def MemoryManager.load (path : String) (fs : SnapshotFS) : MemoryState :=
  match fs.lookup path with
  | some snap => { workingMemory := snap.workingMemory,
                   conversationHistory := snap.conversationHistory }
  | none => { workingMemory := [], conversationHistory := [] }

/-- A demo configuration used as concrete input for witnesses and
counterexamples (canSpawnSubagents and the limits left unset). -/
def demoConfig : AgentConfig :=
  { name := "demo", description := "demo agent", systemPrompt := "You are a demo.",
    tools := ["add"], mode := some "autonomous", canSpawnSubagents := none,
    maxIterations := none, maxSubagents := none }

/-- A freshly constructed agent (empty history, empty memory, idle). -/
def demoAgent : AgentData :=
  { state := { id := "agent-0", config := demoConfig, status := .idle,
               currentTask := none, subagents := [], iterations := 0,
               startTime := 0, endTime := none,
               context := { messages := [], environment := [], availableTools := ["add"],
                            workingMemory := [], sessionId := "session-0",
                            parentAgentId := none } }
    memory := { workingMemory := [], conversationHistory := [] } }

/-- A minimal response used as a concrete child/think outcome. -/
def emptyResponse : AgentResponse :=
  { message := .str "", toolCalls := none, nextAction := .str "complete", metadata := none }

/-- The spec scenario capability: `add` requires numeric a and b and returns
their sum. -/
def addTool : Tool :=
  { name := "add", description := "adds two numbers",
    parameters :=
      [ { name := "a", type := "number", description := "left operand",
          required := true, schema := none },
        { name := "b", type := "number", description := "right operand",
          required := true, schema := none } ],
    execute := fun params =>
      match params.lookup "a", params.lookup "b" with
      | some (.num x), some (.num y) =>
          .ok { success := true, data := some (.obj [("result", .num (x + y))]),
                error := none, metadata := none }
      | _, _ => .error "bad operands" }

/-- A capability whose body always throws. -/
def throwingTool : Tool :=
  { name := "thrower", description := "always throws", parameters := [],
    execute := fun _ => .error "boom" }

/-- C1 (amended).  For every input and every capability outcome, both
execute variants return normally — they are total functions of the reasoning
outcome, so a throwing capability (already contained by the registry) or a
throwing reasoning call never escapes.  An exception reaching the single
try/catch of execute sets the session status to Error and is returned as a
normal response with nextAction complete, whose message is
"Error: <cause>" in the Agent variant but "❌ Erreur: <cause>" in the
ClaudeAgent variant (the claim's uniform "Error: <cause>" fails there). -/
theorem execute_contains_exceptions (reg : List Tool) (a : AgentData) (userInput : String)
    (e : String) (summaryOutcome : Except String AgentResponse) (now : Nat) :
    ((Agent.execute reg a userInput (.error e) now).2 =
      { message := .str ("Error: " ++ e), toolCalls := none,
        nextAction := .str "complete", metadata := none })
    ∧ ((Agent.execute reg a userInput (.error e) now).1.state.status = .error)
    ∧ ((ClaudeAgent.execute reg a userInput (.error e) summaryOutcome now).2 =
      { message := .str ("❌ Erreur: " ++ e), toolCalls := none,
        nextAction := .str "complete", metadata := none })
    ∧ ((ClaudeAgent.execute reg a userInput (.error e) summaryOutcome now).1.state.status = .error) :=
  ⟨rfl, rfl, rfl, rfl⟩

/-- C1 counterexample: at a concrete throwing reasoning outcome the
ClaudeAgent variant answers "❌ Erreur: boom", not "Error: boom" as the
claim states for every variant. -/
theorem claude_execute_error_message_cex :
    (ClaudeAgent.execute [] demoAgent "hi" (.error "boom") (.ok emptyResponse) 0).2.message
      = .str ("❌ Erreur: " ++ "boom")
    ∧ ("❌ Erreur: " ++ "boom" : String) ≠ "Error: " ++ "boom" :=
  ⟨rfl, by decide⟩

/-- C2.  invoke (ToolRegistry.executeTool) is a total function — the
embedding of "never raises; always resolves to a CapabilityResult" — and:
an unregistered name yields a success:false result rather than a raised
error; a success:true result can only come from a registered tool; and a
capability body that throws is caught and mapped to a success:false result
carrying the thrown message. -/
theorem executeTool_total_unknown_tool (tools : List Tool) (toolName : String)
    (parameters : List (String × Value)) :
    (ToolRegistry.getTool tools toolName = none →
      ToolRegistry.executeTool tools toolName parameters =
        { success := false, data := none,
          error := some ("Tool \"" ++ toolName ++ "\" not found"), metadata := none })
    ∧ ((ToolRegistry.executeTool tools toolName parameters).success = true →
        (ToolRegistry.getTool tools toolName).isSome = true)
    ∧ (∀ tool e, ToolRegistry.getTool tools toolName = some tool →
        missingRequired tool.parameters parameters = [] →
        firstInvalid tool.parameters parameters = none →
        tool.execute parameters = .error e →
        ToolRegistry.executeTool tools toolName parameters =
          { success := false, data := none,
            error := some (if e == "" then "Unknown error occurred" else e),
            metadata := none }) := by
  refine ⟨fun h => by simp [ToolRegistry.executeTool, h], ?_, ?_⟩
  · intro h
    cases hg : ToolRegistry.getTool tools toolName with
    | none => simp [ToolRegistry.executeTool, hg] at h
    | some tool => simp [hg]
  · intro tool e hg hm hf he
    simp [ToolRegistry.executeTool, hg, hm, hf, he]

/-- C2 witness: the unknown-name case and the throwing-capability case at
concrete inputs. -/
theorem executeTool_total_unknown_tool_witness :
    ToolRegistry.executeTool [] "unknown" [] =
      { success := false, data := none,
        error := some ("Tool \"" ++ "unknown" ++ "\" not found"), metadata := none }
    ∧ ToolRegistry.executeTool [throwingTool] "thrower" [] =
      { success := false, data := none, error := some "boom", metadata := none } :=
  ⟨(executeTool_total_unknown_tool [] "unknown" []).1 rfl,
   (executeTool_total_unknown_tool [throwingTool] "thrower" []).2.2 throwingTool "boom"
     rfl rfl rfl rfl⟩

/-- C6.  When the supplied record omits at least one required parameter,
invoke fails with a result listing exactly the missing required names
(in declaration order), and the capability's execute function is never
called: the second conjunct shows the result is identical for every
registry whose tool under the invoked name declares the same parameter
list — whatever its execute body is — so the outcome cannot depend on
the execute function. -/
theorem executeTool_missing_params (tools : List Tool) (toolName : String)
    (parameters : List (String × Value)) (tool : Tool)
    (hfind : ToolRegistry.getTool tools toolName = some tool)
    (hmiss : missingRequired tool.parameters parameters ≠ []) :
    ToolRegistry.executeTool tools toolName parameters =
      { success := false, data := none,
        error := some ("Missing required parameters: "
          ++ String.intercalate ", " (missingRequired tool.parameters parameters)),
        metadata := none }
    ∧ ∀ (tools2 : List Tool) (tool2 : Tool),
        ToolRegistry.getTool tools2 toolName = some tool2 →
        tool2.parameters = tool.parameters →
        ToolRegistry.executeTool tools2 toolName parameters =
          { success := false, data := none,
            error := some ("Missing required parameters: "
              ++ String.intercalate ", " (missingRequired tool.parameters parameters)),
            metadata := none } := by
  have hlen : 0 < (missingRequired tool.parameters parameters).length :=
    List.length_pos.mpr hmiss
  refine ⟨by simp [ToolRegistry.executeTool, hfind, hlen], ?_⟩
  intro tools2 tool2 h2 hp
  simp [ToolRegistry.executeTool, h2, hp, hlen]

/-- C6 witness: invoking the add capability with an empty record fails,
lists both missing names, and the outcome is the same for a same-signature
tool with a different (throwing) body. -/
theorem executeTool_missing_params_witness :
    ToolRegistry.executeTool [addTool] "add" [] =
      { success := false, data := none,
        error := some "Missing required parameters: a, b", metadata := none }
    ∧ ToolRegistry.executeTool [{ addTool with execute := fun _ => .error "boom" }] "add" [] =
      { success := false, data := none,
        error := some "Missing required parameters: a, b", metadata := none } :=
  ⟨(executeTool_missing_params [addTool] "add" [] addTool rfl (by decide)).1,
   (executeTool_missing_params [addTool] "add" [] addTool rfl (by decide)).2
     [{ addTool with execute := fun _ => .error "boom" }]
     { addTool with execute := fun _ => .error "boom" } rfl rfl⟩

/-- C4.  Round-trip law of Session Memory persistence: persist() followed
by a fresh load() on the same path reconstructs workingMemory and
conversationHistory exactly, for every state expressible in the JSON value
universe (which is exactly the JSON-serializable states). -/
theorem memory_persist_load_roundtrip (mem : MemoryState) (path : String)
    (fs : SnapshotFS) (now : String) :
    MemoryManager.load path (MemoryManager.persist mem path fs now) = mem := by
  simp [MemoryManager.load, MemoryManager.persist, List.lookup]

/-- C7 (amended).  A generative reply containing no JSON object degrades to
a response whose message is the raw reply and whose nextAction is complete;
however the capabilityCalls (toolCalls) property is omitted from the
degraded response — `undefined`, treated downstream as no calls — rather
than being set to the empty array as the claim states. -/
theorem parse_no_json_degrades (jsonParse : String → Option Value) (responseText : String)
    (h : extractJsonCandidate responseText = none) :
    parseClaudeResponse jsonParse responseText =
      { message := .str responseText, toolCalls := none,
        nextAction := .str "complete", metadata := none } := by
  simp [parseClaudeResponse, h]

/-- C7 witness: a concrete brace-free reply degrades as described. -/
theorem parse_no_json_degrades_witness :
    parseClaudeResponse (fun _ => none) "hello" =
      { message := .str "hello", toolCalls := none,
        nextAction := .str "complete", metadata := none } :=
  parse_no_json_degrades (fun _ => none) "hello" (by decide)

/-- C7 counterexample: on a brace-free reply the degraded response's
toolCalls field is absent (none), not the empty array the claim states. -/
theorem parse_no_json_toolCalls_cex :
    (parseClaudeResponse (fun _ => none) "hello").toolCalls = none
    ∧ (none : Option (List ToolCall)) ≠ some [] :=
  ⟨rfl, fun h => Option.noConfusion h⟩

/-- C8 (amended).  Whenever the parser decodes a JSON object from the
reply: toolCalls is coerced to an array — element-wise for a decoded array,
the empty array when the field is absent or not an array; metadata retains
the raw reply and the decoded reasoning field; nextAction defaults to
complete when the decoded field is absent (or falsy), but a truthy decoded
value is passed through verbatim with no validation against the known enum
values continue, await_input, spawn_subagent, complete. -/
theorem parse_decoded_coercions (jsonParse : String → Option Value)
    (responseText jsonStr : String) (parsed : Value)
    (hx : extractJsonCandidate responseText = some jsonStr)
    (hp : jsonParse jsonStr = some parsed) :
    ((parseClaudeResponse jsonParse responseText).toolCalls
        = some (coerceToolCalls (getField parsed "toolCalls")))
    ∧ (∀ items, getField parsed "toolCalls" = some (.arr items) →
        (parseClaudeResponse jsonParse responseText).toolCalls
          = some (items.map decodeToolCall))
    ∧ (getField parsed "toolCalls" = none →
        (parseClaudeResponse jsonParse responseText).toolCalls = some [])
    ∧ (getField parsed "nextAction" = none →
        (parseClaudeResponse jsonParse responseText).nextAction = .str "complete")
    ∧ (∀ v, getField parsed "nextAction" = some v → truthy v = true →
        (parseClaudeResponse jsonParse responseText).nextAction = v)
    ∧ ((parseClaudeResponse jsonParse responseText).metadata
        = some { reasoning := getField parsed "reasoning", rawResponse := some responseText }) := by
  refine ⟨by simp [parseClaudeResponse, hx, hp], ?_, ?_, ?_, ?_,
          by simp [parseClaudeResponse, hx, hp]⟩
  · intro items hi
    simp [parseClaudeResponse, hx, hp, coerceToolCalls, hi]
  · intro hnone
    simp [parseClaudeResponse, hx, hp, coerceToolCalls, hnone]
  · intro hnone
    simp [parseClaudeResponse, hx, hp, jsOr, hnone]
  · intro v hv htruthy
    simp [parseClaudeResponse, hx, hp, jsOr, hv, htruthy]

/-- A parse oracle returning an object with no fields. -/
def emptyObjParse : String → Option Value := fun _ => some (.obj [])

/-- C8 witness: decoding an empty object from a reply consisting of one
empty brace pair yields the empty toolCalls array, the default complete
nextAction, and metadata retaining the raw reply. -/
theorem parse_decoded_coercions_witness :
    (parseClaudeResponse emptyObjParse "\x7b\x7d").toolCalls = some []
    ∧ (parseClaudeResponse emptyObjParse "\x7b\x7d").nextAction = .str "complete"
    ∧ (parseClaudeResponse emptyObjParse "\x7b\x7d").metadata
        = some { reasoning := none, rawResponse := some "\x7b\x7d" } := by
  have h := parse_decoded_coercions emptyObjParse "\x7b\x7d" "\x7b\x7d" (.obj []) (by decide) rfl
  exact ⟨h.2.2.1 rfl, h.2.2.2.1 rfl, h.2.2.2.2.2⟩

/-- A parse oracle returning an object whose nextAction is an arbitrary
string outside the contract's enum. -/
def bananaParse : String → Option Value := fun _ => some (.obj [("nextAction", .str "banana")])

/-- C8 counterexample: a decoded truthy nextAction outside the known enum
is passed through verbatim — the claim's coercion to a known enum value
does not happen. -/
theorem parse_nextAction_passthrough_cex :
    (parseClaudeResponse bananaParse "\x7b\x7d").nextAction = .str "banana"
    ∧ "banana" ∉ knownNextActionStrings :=
  ⟨rfl, by decide⟩

/-- C9 (amended).  spawn raises to its caller in exactly two cases, in both
agent variants: the permission error when canSpawnSubagents is not set to
true, and the quota error when the current subagent count has reached the
effective quota — which is the configured maxSubagents when set and
nonzero, and 5 otherwise (the `maxSubagents || 5` computation).  With
permission and the count below the effective quota, spawn succeeds and
appends exactly one child snapshot; an error branch returns before any
mutation, so a failed spawn leaves the parent's subagent count unchanged. -/
theorem spawn_guard_cases (a : AgentData) (childId : String) (childResult : AgentResponse) :
    (¬ a.state.config.canSpawnSubagents = some true →
      Agent.spawnSubagent a childId childResult
          = .error "This agent is not allowed to spawn subagents"
      ∧ ClaudeAgent.spawnSubagent a childId childResult
          = .error "This agent is not allowed to spawn subagents")
    ∧ (a.state.config.canSpawnSubagents = some true →
      jsOrNat a.state.config.maxSubagents 5 ≤ a.state.subagents.length →
      Agent.spawnSubagent a childId childResult
          = .error ("Maximum number of subagents ("
              ++ toString (jsOrNat a.state.config.maxSubagents 5) ++ ") reached")
      ∧ ClaudeAgent.spawnSubagent a childId childResult
          = .error ("Maximum number of subagents ("
              ++ toString (jsOrNat a.state.config.maxSubagents 5) ++ ") reached"))
    ∧ (a.state.config.canSpawnSubagents = some true →
      a.state.subagents.length < jsOrNat a.state.config.maxSubagents 5 →
      Agent.spawnSubagent a childId childResult
          = .ok ({ a with state := { a.state with
                subagents := a.state.subagents ++ [childId] } }, childResult)
      ∧ ClaudeAgent.spawnSubagent a childId childResult
          = .ok ({ a with state := { a.state with
                subagents := a.state.subagents ++ [childId] } }, childResult)) := by
  refine ⟨?_, ?_, ?_⟩
  · intro h
    constructor <;> simp [Agent.spawnSubagent, ClaudeAgent.spawnSubagent, h]
  · intro h hq
    constructor <;> simp [Agent.spawnSubagent, ClaudeAgent.spawnSubagent, h, hq]
  · intro h hq
    have hnot : ¬ (jsOrNat a.state.config.maxSubagents 5 ≤ a.state.subagents.length) := by omega
    constructor <;> simp [Agent.spawnSubagent, ClaudeAgent.spawnSubagent, h, hnot]

/-- An agent allowed to spawn, with an explicit quota of 1 already used. -/
def fullAgent : AgentData :=
  { demoAgent with state := { demoAgent.state with
      config := { demoConfig with canSpawnSubagents := some true, maxSubagents := some 1 },
      subagents := ["c0"] } }

/-- An agent allowed to spawn, with an explicit quota of 1 and no children. -/
def freeAgent : AgentData :=
  { demoAgent with state := { demoAgent.state with
      config := { demoConfig with canSpawnSubagents := some true, maxSubagents := some 1 } } }

/-- C9 witness: the three guard branches at concrete agents — no
permission, quota reached, and a successful spawn. -/
theorem spawn_guard_cases_witness :
    Agent.spawnSubagent demoAgent "child" emptyResponse
      = .error "This agent is not allowed to spawn subagents"
    ∧ Agent.spawnSubagent fullAgent "child" emptyResponse
      = .error "Maximum number of subagents (1) reached"
    ∧ Agent.spawnSubagent freeAgent "child" emptyResponse
      = .ok ({ freeAgent with state := { freeAgent.state with
            subagents := ["child"] } }, emptyResponse) :=
  ⟨((spawn_guard_cases demoAgent "child" emptyResponse).1 (by decide)).1,
   ((spawn_guard_cases fullAgent "child" emptyResponse).2.1 rfl (by decide)).1,
   ((spawn_guard_cases freeAgent "child" emptyResponse).2.2 rfl (by decide)).1⟩

/-- An agent allowed to spawn whose configured maxSubagents is 0. -/
def zeroQuotaAgent : AgentData :=
  { demoAgent with state := { demoAgent.state with
      config := { demoConfig with canSpawnSubagents := some true, maxSubagents := some 0 } } }

/-- C9 counterexample: with a configured maxSubagents of 0 the current
count (0) has reached maxSubagents, yet spawn succeeds instead of raising
the quota error — `maxSubagents || 5` treats the configured 0 as 5, so the
claim's "quota error when the count has reached maxSubagents" fails. -/
theorem spawn_zero_quota_cex :
    Agent.spawnSubagent zeroQuotaAgent "child" emptyResponse
      = .ok ({ zeroQuotaAgent with state := { zeroQuotaAgent.state with
            subagents := ["child"] } }, emptyResponse) := rfl

/-- C10.  When maxSubagents is left unset the effective spawn quota is 5,
and a configured quota of 0 — being falsy in `maxSubagents || 5` — is also
treated as 5 rather than forbidding all spawns: in both cases, and in both
agent variants, spawn succeeds below 5 children and fails with the quota
error at 5. -/
theorem spawn_default_quota (a : AgentData) (childId : String) (childResult : AgentResponse)
    (hperm : a.state.config.canSpawnSubagents = some true)
    (hq : a.state.config.maxSubagents = none ∨ a.state.config.maxSubagents = some 0) :
    (a.state.subagents.length < 5 →
      Agent.spawnSubagent a childId childResult
          = .ok ({ a with state := { a.state with
                subagents := a.state.subagents ++ [childId] } }, childResult)
      ∧ ClaudeAgent.spawnSubagent a childId childResult
          = .ok ({ a with state := { a.state with
                subagents := a.state.subagents ++ [childId] } }, childResult))
    ∧ (5 ≤ a.state.subagents.length →
      Agent.spawnSubagent a childId childResult
          = .error "Maximum number of subagents (5) reached"
      ∧ ClaudeAgent.spawnSubagent a childId childResult
          = .error "Maximum number of subagents (5) reached") := by
  have hmax : jsOrNat a.state.config.maxSubagents 5 = 5 := by
    rcases hq with h | h <;> simp [jsOrNat, h]
  constructor
  · intro hlt
    have hnot : ¬ (jsOrNat a.state.config.maxSubagents 5 ≤ a.state.subagents.length) := by omega
    constructor <;> simp [Agent.spawnSubagent, ClaudeAgent.spawnSubagent, hperm, hnot]
  · intro hge
    constructor <;> simp [Agent.spawnSubagent, ClaudeAgent.spawnSubagent, hperm, hmax, hge] <;> rfl

/-- An agent allowed to spawn with maxSubagents left unset. -/
def defaultQuotaAgent : AgentData :=
  { demoAgent with state := { demoAgent.state with
      config := { demoConfig with canSpawnSubagents := some true } } }

/-- C10 witness: the unset-quota agent and the zero-quota agent both spawn
successfully below five children. -/
theorem spawn_default_quota_witness :
    Agent.spawnSubagent defaultQuotaAgent "child" emptyResponse
      = .ok ({ defaultQuotaAgent with state := { defaultQuotaAgent.state with
            subagents := ["child"] } }, emptyResponse)
    ∧ ClaudeAgent.spawnSubagent zeroQuotaAgent "child" emptyResponse
      = .ok ({ zeroQuotaAgent with state := { zeroQuotaAgent.state with
            subagents := ["child"] } }, emptyResponse) := by
  refine ⟨?_, ?_⟩
  · exact ((spawn_default_quota defaultQuotaAgent "child" emptyResponse rfl (Or.inl rfl)).1 (by decide)).1
  · exact ((spawn_default_quota zeroQuotaAgent "child" emptyResponse rfl (Or.inr rfl)).1 (by decide)).2

/-- The tool loop appends exactly one Tool Message per call to the
MemoryManager conversation log, in declared order, regardless of each
result's success flag. -/
theorem runToolCalls_history (reg : List Tool) (toolMsg : ToolCall → ToolResult → Nat → Message)
    (now : Nat) (calls : List ToolCall) (a : AgentData) :
    (runToolCalls reg toolMsg now a calls).memory.conversationHistory
      = a.memory.conversationHistory
        ++ calls.map (fun c => toolMsg c (ToolRegistry.executeTool reg c.toolName c.parameters) now) := by
  induction calls generalizing a with
  | nil => simp [runToolCalls]
  | cons c rest ih =>
      rw [runToolCalls, ih]
      simp [applyToolCall, MemoryManager.addMessage, MemoryManager.set]

/-- The tool loop appends the same Tool Messages to the context message
list. -/
theorem runToolCalls_messages (reg : List Tool) (toolMsg : ToolCall → ToolResult → Nat → Message)
    (now : Nat) (calls : List ToolCall) (a : AgentData) :
    (runToolCalls reg toolMsg now a calls).state.context.messages
      = a.state.context.messages
        ++ calls.map (fun c => toolMsg c (ToolRegistry.executeTool reg c.toolName c.parameters) now) := by
  induction calls generalizing a with
  | nil => simp [runToolCalls]
  | cons c rest ih =>
      rw [runToolCalls, ih]
      simp [applyToolCall]

/-- The tool loop leaves the iteration counter untouched. -/
theorem runToolCalls_iterations (reg : List Tool) (toolMsg : ToolCall → ToolResult → Nat → Message)
    (now : Nat) (calls : List ToolCall) (a : AgentData) :
    (runToolCalls reg toolMsg now a calls).state.iterations = a.state.iterations := by
  induction calls generalizing a with
  | nil => rfl
  | cons c rest ih => rw [runToolCalls, ih]; rfl

/-- Appending to a shared prefix is injective, so distinct tool names yield
distinct working-memory keys. -/
theorem string_append_left_cancel {s a b : String} (h : s ++ a = s ++ b) : a = b := by
  cases s with
  | mk sd =>
    cases a with
    | mk ad =>
      cases b with
      | mk bd =>
        have hd : sd ++ ad = sd ++ bd := congrArg String.data h
        exact congrArg String.mk (List.append_cancel_left hd)

/-- A key written by none of the calls in the loop reads the same before
and after the loop. -/
theorem runToolCalls_lookup_skip (reg : List Tool)
    (toolMsg : ToolCall → ToolResult → Nat → Message) (now : Nat) (k : String)
    (calls : List ToolCall) (a : AgentData)
    (h : ∀ c ∈ calls, ("tool_result_" ++ c.toolName) ≠ k) :
    (runToolCalls reg toolMsg now a calls).memory.workingMemory.lookup k
      = a.memory.workingMemory.lookup k := by
  induction calls generalizing a with
  | nil => rfl
  | cons c rest ih =>
      rw [runToolCalls, ih _ (fun x hx => h x (List.mem_cons_of_mem _ hx))]
      have hne : ("tool_result_" ++ c.toolName) ≠ k := h c (List.mem_cons_self _ _)
      simp [applyToolCall, MemoryManager.set, MemoryManager.addMessage, List.lookup,
            beq_eq_false_iff_ne.mpr (Ne.symm hne)]

/-- After the loop, a call whose tool name is not repeated later reads its
own result back from working memory under `tool_result_` + name. -/
theorem runToolCalls_lookup (reg : List Tool)
    (toolMsg : ToolCall → ToolResult → Nat → Message) (now : Nat)
    (calls : List ToolCall) (a : AgentData)
    (hdist : (calls.map (fun c => c.toolName)).Pairwise (fun x y => x ≠ y)) :
    ∀ c ∈ calls,
      (runToolCalls reg toolMsg now a calls).memory.workingMemory.lookup
          ("tool_result_" ++ c.toolName)
        = some (toolResultJson (ToolRegistry.executeTool reg c.toolName c.parameters)) := by
  induction calls generalizing a with
  | nil => intro c hc; cases hc
  | cons c0 rest ih =>
      intro c hc
      rw [runToolCalls]
      rcases List.mem_cons.mp hc with hc0 | hmem
      · subst hc0
        have hk : ∀ x ∈ rest, ("tool_result_" ++ x.toolName) ≠ ("tool_result_" ++ c.toolName) := by
          intro x hx hkey
          have hnames := (List.pairwise_cons.mp hdist).1 x.toolName
            (List.mem_map_of_mem _ hx)
          exact hnames.symm (string_append_left_cancel hkey)
        rw [runToolCalls_lookup_skip reg toolMsg now _ rest _ hk]
        simp [applyToolCall, MemoryManager.set, MemoryManager.addMessage, List.lookup]
      · exact ih _ (List.pairwise_cons.mp hdist).2 c hmem

/-- C3.  When a decision's capability call list is non-empty (the theorem
covers every list), executeTools of both agent variants processes the calls
sequentially in declared order: the conversation history and the context
message list are extended by exactly the list of Tool Messages carrying
each call's serialized result, one per call in declared order — so a
failing result (success false) still contributes its message and never
aborts the remaining calls — and each call's result is stored in working
memory under `tool_result_` + capability name (read back here under the
no-duplicate-names hypothesis, the registry key situation; with duplicates
the later call's write shadows the earlier one, last write wins). -/
theorem executeTools_sequential_store_append (reg : List Tool) (a : AgentData)
    (calls : List ToolCall) (now : Nat) :
    ((Agent.executeTools reg a calls now).memory.conversationHistory
      = a.memory.conversationHistory
        ++ calls.map (fun c => Agent.toolMessage c (ToolRegistry.executeTool reg c.toolName c.parameters) now))
    ∧ ((Agent.executeTools reg a calls now).state.context.messages
      = a.state.context.messages
        ++ calls.map (fun c => Agent.toolMessage c (ToolRegistry.executeTool reg c.toolName c.parameters) now))
    ∧ ((ClaudeAgent.executeTools reg a calls now).memory.conversationHistory
      = a.memory.conversationHistory
        ++ calls.map (fun c => ClaudeAgent.toolMessage c (ToolRegistry.executeTool reg c.toolName c.parameters) now))
    ∧ ((ClaudeAgent.executeTools reg a calls now).state.context.messages
      = a.state.context.messages
        ++ calls.map (fun c => ClaudeAgent.toolMessage c (ToolRegistry.executeTool reg c.toolName c.parameters) now))
    ∧ ((calls.map (fun c => c.toolName)).Pairwise (fun x y => x ≠ y) →
        ∀ c ∈ calls,
          (Agent.executeTools reg a calls now).memory.workingMemory.lookup
              ("tool_result_" ++ c.toolName)
            = some (toolResultJson (ToolRegistry.executeTool reg c.toolName c.parameters))
          ∧ (ClaudeAgent.executeTools reg a calls now).memory.workingMemory.lookup
              ("tool_result_" ++ c.toolName)
            = some (toolResultJson (ToolRegistry.executeTool reg c.toolName c.parameters))) := by
  refine ⟨?_, ?_, ?_, ?_, ?_⟩
  · rw [Agent.executeTools, runToolCalls_history]
  · rw [Agent.executeTools, runToolCalls_messages]
  · rw [ClaudeAgent.executeTools, runToolCalls_history]
  · rw [ClaudeAgent.executeTools, runToolCalls_messages]
  · intro hdist c hc
    exact ⟨runToolCalls_lookup reg Agent.toolMessage now calls _ hdist c hc,
           runToolCalls_lookup reg ClaudeAgent.toolMessage now calls _ hdist c hc⟩

/-- The spec scenario call: add with a=2, b=3. -/
def addCall : ToolCall :=
  { toolName := "add", parameters := [("a", .num 2), ("b", .num 3)],
    reasoning := some "User asked for a calculation" }

/-- C3 witness: one concrete call through the add capability — the tool
message is appended and the result is stored under tool_result_add. -/
theorem executeTools_sequential_store_append_witness :
    (Agent.executeTools [addTool] demoAgent [addCall] 0).memory.conversationHistory
      = [Agent.toolMessage addCall (ToolRegistry.executeTool [addTool] "add" addCall.parameters) 0]
    ∧ (Agent.executeTools [addTool] demoAgent [addCall] 0).memory.workingMemory.lookup
        "tool_result_add"
      = some (toolResultJson (ToolRegistry.executeTool [addTool] "add" addCall.parameters)) := by
  have h := executeTools_sequential_store_append [addTool] demoAgent [addCall] 0
  refine ⟨by simpa using h.1, ?_⟩
  have hl := (h.2.2.2.2 (by simp) addCall (by simp)).1
  simpa using hl

/-- Agent.execute leaves the iteration counter unchanged on every path. -/
theorem agent_execute_iterations (reg : List Tool) (a : AgentData) (userInput : String)
    (tk : Except String AgentResponse) (now : Nat) :
    (Agent.execute reg a userInput tk now).1.state.iterations = a.state.iterations := by
  cases tk with
  | error e => rfl
  | ok r =>
      by_cases h : (r.toolCalls.getD []).length > 0
      · simp [Agent.execute, h, Agent.executeTools, runToolCalls_iterations]
      · simp [Agent.execute, h]

/-- ClaudeAgent.execute increments the iteration counter by exactly one on
every path. -/
theorem claude_execute_iterations (reg : List Tool) (a : AgentData) (userInput : String)
    (tk sk : Except String AgentResponse) (now : Nat) :
    (ClaudeAgent.execute reg a userInput tk sk now).1.state.iterations
      = a.state.iterations + 1 := by
  cases tk with
  | error e => rfl
  | ok r =>
      by_cases h : (r.toolCalls.getD []).length > 0
      · simp [ClaudeAgent.execute, h, ClaudeAgent.executeTools, runToolCalls_iterations]
      · simp [ClaudeAgent.execute, h]

/-- Agent.execute appends the input as a user Message right after the
existing conversation history, on every path. -/
theorem agent_execute_history_shape (reg : List Tool) (a : AgentData) (userInput : String)
    (tk : Except String AgentResponse) (now : Nat) :
    ∃ rest, (Agent.execute reg a userInput tk now).1.memory.conversationHistory
      = a.memory.conversationHistory
        ++ ({ role := .user, content := .str userInput, metadata := none,
              timestamp := now } :: rest) := by
  cases tk with
  | error e => exact ⟨[], by simp [Agent.execute, MemoryManager.addMessage]⟩
  | ok r =>
      by_cases h : (r.toolCalls.getD []).length > 0
      · refine ⟨(r.toolCalls.getD []).map
          (fun c => Agent.toolMessage c (ToolRegistry.executeTool reg c.toolName c.parameters) now), ?_⟩
        simp [Agent.execute, h, Agent.executeTools, runToolCalls_history,
              MemoryManager.addMessage, List.append_assoc]
      · exact ⟨[], by simp [Agent.execute, h, MemoryManager.addMessage]⟩

/-- ClaudeAgent.execute appends the input as a user Message right after the
existing conversation history, on every path. -/
theorem claude_execute_history_shape (reg : List Tool) (a : AgentData) (userInput : String)
    (tk sk : Except String AgentResponse) (now : Nat) :
    ∃ rest, (ClaudeAgent.execute reg a userInput tk sk now).1.memory.conversationHistory
      = a.memory.conversationHistory
        ++ ({ role := .user, content := .str userInput, metadata := none,
              timestamp := now } :: rest) := by
  cases tk with
  | error e => exact ⟨[], by simp [ClaudeAgent.execute, MemoryManager.addMessage]⟩
  | ok r =>
      by_cases h : (r.toolCalls.getD []).length > 0
      · cases sk with
        | ok s =>
            refine ⟨((r.toolCalls.getD []).map
                (fun c => ClaudeAgent.toolMessage c (ToolRegistry.executeTool reg c.toolName c.parameters) now))
              ++ [{ role := .assistant, content := s.message,
                    metadata := some (assistantMeta r), timestamp := now }], ?_⟩
            simp [ClaudeAgent.execute, h, ClaudeAgent.executeTools, runToolCalls_history,
                  MemoryManager.addMessage, List.append_assoc]
        | error se =>
            refine ⟨((r.toolCalls.getD []).map
                (fun c => ClaudeAgent.toolMessage c (ToolRegistry.executeTool reg c.toolName c.parameters) now))
              ++ [{ role := .assistant, content := r.message,
                    metadata := some (assistantMeta r), timestamp := now }], ?_⟩
            simp [ClaudeAgent.execute, h, ClaudeAgent.executeTools, runToolCalls_history,
                  MemoryManager.addMessage, List.append_assoc]
      · exact ⟨[{ role := .assistant, content := r.message,
                  metadata := some (assistantMeta r), timestamp := now }],
          by simp [ClaudeAgent.execute, h, MemoryManager.addMessage]⟩

/-- C5 (amended).  Every execute call appends the supplied input as a user
Message to the conversation history before anything else; the ClaudeAgent
variant then increments iterationCount by exactly one before the reasoning
step, but the plain Agent variant never touches iterationCount, so only
ClaudeAgent satisfies the claimed n-more-after-n-calls law. -/
theorem execute_iteration_count (reg : List Tool) (a : AgentData) (userInput : String)
    (thinkOutcome summaryOutcome : Except String AgentResponse) (now : Nat) :
    ((ClaudeAgent.execute reg a userInput thinkOutcome summaryOutcome now).1.state.iterations
        = a.state.iterations + 1)
    ∧ ((Agent.execute reg a userInput thinkOutcome now).1.state.iterations
        = a.state.iterations)
    ∧ (∃ rest, (ClaudeAgent.execute reg a userInput thinkOutcome summaryOutcome now).1.memory.conversationHistory
        = a.memory.conversationHistory
          ++ ({ role := .user, content := .str userInput, metadata := none,
                timestamp := now } :: rest))
    ∧ (∃ rest, (Agent.execute reg a userInput thinkOutcome now).1.memory.conversationHistory
        = a.memory.conversationHistory
          ++ ({ role := .user, content := .str userInput, metadata := none,
                timestamp := now } :: rest)) :=
  ⟨claude_execute_iterations reg a userInput thinkOutcome summaryOutcome now,
   agent_execute_iterations reg a userInput thinkOutcome now,
   claude_execute_history_shape reg a userInput thinkOutcome summaryOutcome now,
   agent_execute_history_shape reg a userInput thinkOutcome now⟩

/-- C5 counterexample: a concrete Agent.execute call leaves iterationCount
at its initial value 0 instead of incrementing it to 1 as the claim states
for every execute variant. -/
theorem agent_execute_iterations_cex :
    (Agent.execute [] demoAgent "hi" (.ok emptyResponse) 0).1.state.iterations = 0
    ∧ demoAgent.state.iterations + 1 ≠ 0 :=
  ⟨rfl, by decide⟩
